import Mathlib

/-!
Verification development for the hidden-lava-crossing repository.

The repository contains two training scripts around a custom T-maze
MiniGrid environment:

- src/main_dqn.py : class TMaze (4-directional absolute movement,
  oracle "arrow" hint, grey decoy boxes driven by an episode-count
  curriculum) plus an off-policy DQN driver.
- src/main.py : an earlier TMaze variant (goal only, scalar arrow) plus
  a PPO driver with a backward GAE loop and a compute penalty.

This file gives a shallow embedding of the environment state machine
(grid construction, observation generation, step semantics, reset) and
of the GAE backward loop, translated from the source.  Machine floats
are modelled by rationals; the numpy random generator is modelled by an
explicit stream of unit-interval rationals consumed in program order.
Grid coordinates are naturals; the walled perimeter keeps every
reachable move inside the grid, matching the bounds assertion of the
library getter that never fires in reachable states.
-/

/-- Color of a MiniGrid Goal object.  The true goal is green; the decoy
boxes placed by TMaze.gen_obs in main_dqn.py are grey Goal objects. -/
inductive GoalColor
  | green
  | grey
deriving DecidableEq

/-- Closed variant of the world objects the TMaze code places on the
grid: walls, Goal objects (with their color) and Lava (the hazard). -/
inductive WObj
  | wall
  | goal (c : GoalColor)
  | lava
deriving DecidableEq

/-- Traversability, from the minigrid library classes used by the code:
Wall.can_overlap is false, Goal.can_overlap and Lava.can_overlap are
true. -/
def WObj.canOverlap : WObj → Bool
  | .wall => false
  | .goal _ => true
  | .lava => true

/-- The grid of the environment: dimensions plus a cell map.  A cell
holds none (empty) or a world object, as in minigrid Grid. -/
structure TGrid where
  width : ℕ
  height : ℕ
  cells : ℕ → ℕ → Option WObj

/-- Grid.set of minigrid: overwrite one cell. -/
def TGrid.set (g : TGrid) (x y : ℕ) (o : Option WObj) : TGrid :=
  { g with cells := fun i j => if i = x ∧ j = y then o else g.cells i j }

/-- Grid.get of minigrid: read one cell. -/
def TGrid.get (g : TGrid) (x y : ℕ) : Option WObj :=
  g.cells x y

/-- Grid.horz_wall of minigrid: place a wall run of the given length
starting at column x of row y. -/
def TGrid.horzWall : TGrid → ℕ → ℕ → ℕ → TGrid
  | g, _, _, 0 => g
  | g, x, y, n + 1 => (g.set (x + n) y (some WObj.wall)).horzWall x y n

/-- Grid.vert_wall of minigrid: place a wall run of the given length
starting at row y of column x. -/
def TGrid.vertWall : TGrid → ℕ → ℕ → ℕ → TGrid
  | g, _, _, 0 => g
  | g, x, y, n + 1 => (g.set x (y + n) (some WObj.wall)).vertWall x y n

/-- Grid.wall_rect of minigrid: the four border runs of a rectangle. -/
def TGrid.wallRect (g : TGrid) (x y w h : ℕ) : TGrid :=
  (((g.horzWall x y w).horzWall x (y + h - 1) w).vertWall x y h).vertWall
    (x + w - 1) y h

/-- Grid with every cell empty. -/
def emptyGrid (width height : ℕ) : TGrid :=
  { width := width, height := height, cells := fun _ _ => none }

/-- Result of TMaze._gen_grid in main_dqn.py: the generated grid plus
the attributes the method assigns on the environment object. -/
structure GenResult where
  grid : TGrid
  agent_pos : ℕ × ℕ
  agent_dir : ℕ
  goal_position : ℕ × ℕ
  lava_position : ℕ × ℕ
  arrow_q_values : Fin 4 → ℚ

/-- The candidate corner list of _gen_grid in both files. -/
def goalPositionsList (width : ℕ) : List (ℕ × ℕ) :=
  [(1, 1), (width - 2, 1)]

/-- The wall skeleton built by the seven wall calls at the top of
_gen_grid, identical in src/main_dqn.py and src/main.py: perimeter
rectangle, two vertical corridor walls, and three horizontal runs. -/
def tmazeWalls (width height : ℕ) : TGrid :=
  let g := emptyGrid width height
  let g := g.wallRect 0 0 width height
  let g := g.vertWall (width / 2 - 1) 2 (height - 3)
  let g := g.vertWall (width / 2 + 1) 2 (height - 3)
  let g := g.horzWall 0 0 width
  let g := g.horzWall 0 2 (width / 2)
  g.horzWall (width / 2 + 1) 2 (width / 2)

/-- TMaze._gen_grid of src/main_dqn.py.  The draw
np_random.integers(2) is passed in as goal_choice.  Wall layout, agent
start pose, goal and lava placement and the arrow_q_values one-hot
vector follow the source line by line. -/
def genGridDQN (width height : ℕ) (goal_choice : Fin 2) : GenResult :=
  let g := tmazeWalls width height
  let lava_choice := 1 - goal_choice.val
  let goal_position := (goalPositionsList width).getD goal_choice.val (0, 0)
  let lava_position := (goalPositionsList width).getD lava_choice (0, 0)
  let arrow_q_values : Fin 4 → ℚ := fun i =>
    if i.val = (if goal_position = (width - 2, 1) then 1 else 0) then 1 else 0
  let g := g.set goal_position.1 goal_position.2 (some (WObj.goal GoalColor.green))
  let g := g.set lava_position.1 lava_position.2 (some WObj.lava)
  { grid := g, agent_pos := (width / 2, height - 2), agent_dir := 3,
    goal_position := goal_position, lava_position := lava_position,
    arrow_q_values := arrow_q_values }

/-- Result of TMaze._gen_grid in src/main.py: grid plus assigned
attributes.  arrow_position models the numpy elementwise comparison
goal_position == (width - 2, 1) of a length-2 coordinate array with a
pair, which yields a length-2 boolean array. -/
structure GenResultPPO where
  grid : TGrid
  agent_pos : ℕ × ℕ
  agent_dir : ℕ
  goal_position : ℕ × ℕ
  arrow_position : List Bool

/-- TMaze._gen_grid of src/main.py.  Identical wall layout; the draw
np_random.choice over the two corners is passed in as goal_choice; only
a Goal object is placed (the source places no Lava). -/
def genGridPPO (width height : ℕ) (goal_choice : Fin 2) : GenResultPPO :=
  let g := tmazeWalls width height
  let goal_position := (goalPositionsList width).getD goal_choice.val (0, 0)
  let arrow_position :=
    [decide (goal_position.1 = width - 2), decide (goal_position.2 = 1)]
  let g := g.set goal_position.1 goal_position.2 (some (WObj.goal GoalColor.green))
  { grid := g, agent_pos := (width / 2, height - 2), agent_dir := 3,
    goal_position := goal_position, arrow_position := arrow_position }

/-- A python value that is either a scalar int or a numpy boolean
array, as produced for maybe_random_arrow in src/main.py gen_obs. -/
inductive PyVal
  | int (n : ℤ)
  | boolArr (bs : List Bool)

/-- Result of the python float() conversion. -/
inductive PyScalarResult
  | ok (q : ℚ)
  | typeError
deriving DecidableEq

/-- Python float() applied to a scalar or a numpy array: a size-1 array
converts to its single element, any larger array raises TypeError. -/
def pyFloat : PyVal → PyScalarResult
  | .int n => .ok (n : ℚ)
  | .boolArr [b] => .ok (if b then 1 else 0)
  | .boolArr _ => .typeError

/-- The arrow entry of the observation built by TMaze.gen_obs in
src/main.py: maybe_random_arrow is np.random.randint(0, 1), which is
always the integer 0 (the upper bound is exclusive); at the decision
cell it is replaced by the stored arrow_position array; the observation
stores float() of the result. -/
def genObsArrowPPO (height : ℕ) (agent_pos : ℕ × ℕ)
    (arrow_position : List Bool) : PyScalarResult :=
  let m : PyVal :=
    if agent_pos.1 = (height - 1) / 2 ∧ agent_pos.2 = 1 then
      .boolArr arrow_position
    else
      .int 0
  pyFloat m

/-- The grey decoy object placed by gen_obs in main_dqn.py. -/
def greyBox : WObj := WObj.goal GoalColor.grey

/-- The four candidate decoy cells of gen_obs in main_dqn.py, in source
order: left_box, right_box, up_box, down_box. -/
def boxAt (width height : ℕ) : Fin 4 → ℕ × ℕ
  | 0 => (width * 3 / 4 - 1, height * 2 / 3 - 1)
  | 1 => (width * 3 / 4 + 1, height * 2 / 3 - 1)
  | 2 => (width * 3 / 4, height * 2 / 3 - 2)
  | 3 => (width * 3 / 4, height * 2 / 3)

/-- The candidate decoy cells as a list. -/
def boxLocations (width height : ℕ) : List (ℕ × ℕ) :=
  [boxAt width height 0, boxAt width height 1, boxAt width height 2,
   boxAt width height 3]

/-- The cell selected for the deterministic decoy in gen_obs of
main_dqn.py: when the agent is in the top interior row the box matching
the goal side, otherwise up_box. -/
def decoySel (width height : ℕ) (goal_position agent_pos : ℕ × ℕ) : ℕ × ℕ :=
  if agent_pos.2 = 1 then
    if goal_position = (width - 2, 1) then boxAt width height 1
    else boxAt width height 0
  else boxAt width height 2

/-- Observation data produced by gen_obs of main_dqn.py that the claims
are about: the grid after the decoy mutation, and the arrow vector.
The egocentric image encoding is rendering and is out of scope. -/
structure ObsResult where
  grid : TGrid
  arrow : Fin 4 → ℚ

/-- One iteration of the clearing loop of gen_obs in main_dqn.py. -/
def clearBox (width height : ℕ) (i : Fin 4) (g : TGrid) : TGrid :=
  g.set (boxAt width height i).1 (boxAt width height i).2 none

/-- The first mutation of gen_obs in main_dqn.py: the four candidate
decoy cells are cleared, in source order, before any decoy is placed. -/
def clearedGrid (width height : ℕ) (grid : TGrid) : TGrid :=
  clearBox width height 3 (clearBox width height 2 (clearBox width height 1
    (clearBox width height 0 grid)))

/-- One iteration of the stochastic decoy loop of gen_obs below the
curriculum threshold: place a grey box at candidate cell i when its
coin (the draw np_random.random() < 0.5) is true. -/
def coinStep (width height : ℕ) (coins : Fin 4 → Bool) (i : Fin 4)
    (g : TGrid) : TGrid :=
  if coins i then
    g.set (boxAt width height i).1 (boxAt width height i).2 (some greyBox)
  else g

/-- The stochastic decoy loop of gen_obs below the curriculum
threshold, walking the four candidate cells in source order. -/
def coinChain (width height : ℕ) (coins : Fin 4 → Bool) (g : TGrid) : TGrid :=
  coinStep width height coins 3 (coinStep width height coins 2
    (coinStep width height coins 1 (coinStep width height coins 0 g)))

/-- TMaze.gen_obs of src/main_dqn.py.  The four candidate decoy cells
are first cleared; above the curriculum threshold the grey box goes to
the selected cell, otherwise each candidate cell independently receives
a grey box when its coin (the draw np_random.random() < 0.5) is true.
The arrow is the arrow_q_values vector exactly at the decision cell
((height - 1) / 2, 1), otherwise the uniform noise vector passed in as
the draw np_random.uniform(-1, 1, 4). -/
def genObsDQN (width height : ℕ) (grid : TGrid)
    (goal_position agent_pos : ℕ × ℕ) (arrowQ : Fin 4 → ℚ)
    (numEpisodes threshold : ℕ) (coins : Fin 4 → Bool)
    (noise : Fin 4 → ℚ) : ObsResult :=
  let g := clearedGrid width height grid
  let sel := decoySel width height goal_position agent_pos
  let g :=
    if threshold < numEpisodes then
      g.set sel.1 sel.2 (some greyBox)
    else
      coinChain width height coins g
  let arrow :=
    if agent_pos.1 = (height - 1) / 2 ∧ agent_pos.2 = 1 then arrowQ
    else noise
  { grid := g, arrow := arrow }

/-- Environment state carried across TMaze.step in main_dqn.py. -/
structure EnvState where
  grid : TGrid
  agent_pos : ℕ × ℕ
  step_count : ℕ
  max_steps : ℕ

/-- MiniGridEnv._reward of the minigrid library, as quoted in the class
docstring: 1 - 0.9 * (step_count / max_steps). -/
def rewardFn (stepCount maxSteps : ℕ) : ℚ :=
  1 - (9 / 10) * ((stepCount : ℚ) / (maxSteps : ℚ))

/-- Test fwd_cell is None or fwd_cell.can_overlap() from step. -/
def canOverlapOpt : Option WObj → Bool
  | none => true
  | some o => o.canOverlap

/-- Test fwd_cell is not None and fwd_cell.type equals goal. -/
def isGoalCell : Option WObj → Bool
  | some (WObj.goal _) => true
  | _ => false

/-- Test fwd_cell is not None and fwd_cell.type equals lava. -/
def isLavaCell : Option WObj → Bool
  | some WObj.lava => true
  | _ => false

/-- One movement branch of TMaze.step in main_dqn.py: enter the target
cell when it is empty or can be overlapped; terminate with the shaped
reward on a goal-type cell, terminate with zero reward on lava.  The
state passed in already carries the incremented step counter, as
_reward reads self.step_count after the increment. -/
def moveAttempt (s : EnvState) (fwd : ℕ × ℕ) : EnvState × ℚ × Bool :=
  let c := s.grid.get fwd.1 fwd.2
  let s1 := if canOverlapOpt c then { s with agent_pos := fwd } else s
  let reward : ℚ :=
    if isGoalCell c then rewardFn s.step_count s.max_steps else 0
  let terminated := isGoalCell c || isLavaCell c
  (s1, reward, terminated)

/-- Errors the step method can raise.  Actions is an IntEnum with
members left, forward, right, backward only, so evaluating the
comparison with self.actions.done raises AttributeError; the explicit
raise ValueError for an unknown action sits after that comparison. -/
inductive PyError
  | attributeErrorDone
  | valueErrorUnknownAction
deriving DecidableEq

/-- Outcome of one call to TMaze.step: either the gymnasium 5-tuple
data (observation dict aside) or a raised error.  Both carry the
environment state as left behind by the call, since python mutates the
object in place before any raise. -/
inductive StepOutcome
  | ok (s : EnvState) (reward : ℚ) (terminated truncated : Bool)
  | error (e : PyError) (s : EnvState)

/-- State after the call, on both the normal and the raising path. -/
def StepOutcome.stateOf : StepOutcome → EnvState
  | .ok s _ _ _ => s
  | .error _ s => s

/-- Reward of a completed step; zero junk value on the raising path. -/
def StepOutcome.rewardOf : StepOutcome → ℚ
  | .ok _ r _ _ => r
  | .error _ _ => 0

/-- Terminated flag of a completed step. -/
def StepOutcome.terminatedOf : StepOutcome → Bool
  | .ok _ _ t _ => t
  | .error _ _ => false

/-- Truncated flag of a completed step. -/
def StepOutcome.truncatedOf : StepOutcome → Bool
  | .ok _ _ _ t => t
  | .error _ _ => false

/-- Raised error, when the call raised. -/
def StepOutcome.errorOf : StepOutcome → Option PyError
  | .ok _ _ _ _ => none
  | .error e _ => some e

/-- Close off a successful step: the truncation check
step_count >= max_steps runs after every movement branch. -/
def finishStep : EnvState × ℚ × Bool → StepOutcome
  | (s, r, term) => StepOutcome.ok s r term (decide (s.max_steps ≤ s.step_count))

/-- TMaze.step of src/main_dqn.py.  The step counter is incremented
first; then the four movement branches keyed on the Actions values
left = 0, forward = 1, right = 2, backward = 3 run in source order
(left, right, forward, backward); any other action value reaches the
comparison with the missing enum member done and raises AttributeError
with the counter already incremented.  The trailing gen_obs call only
rebuilds the decoy cells and the arrow (modelled by genObsDQN) and does
not affect reward, flags, pose or counter. -/
def stepDQN (s0 : EnvState) (action : ℕ) : StepOutcome :=
  let s := { s0 with step_count := s0.step_count + 1 }
  if action = 0 then
    finishStep (moveAttempt s (s.agent_pos.1 - 1, s.agent_pos.2))
  else if action = 2 then
    finishStep (moveAttempt s (s.agent_pos.1 + 1, s.agent_pos.2))
  else if action = 1 then
    finishStep (moveAttempt s (s.agent_pos.1, s.agent_pos.2 - 1))
  else if action = 3 then
    finishStep (moveAttempt s (s.agent_pos.1, s.agent_pos.2 + 1))
  else
    StepOutcome.error PyError.attributeErrorDone s

/-- Target cell of a movement action, matching the four branches. -/
def fwdPos (pos : ℕ × ℕ) (action : ℕ) : ℕ × ℕ :=
  if action = 0 then (pos.1 - 1, pos.2)
  else if action = 2 then (pos.1 + 1, pos.2)
  else if action = 1 then (pos.1, pos.2 - 1)
  else (pos.1, pos.2 + 1)

/-- Content of the cell a movement action steps toward. -/
def fwdCell (s : EnvState) (action : ℕ) : Option WObj :=
  s.grid.get (fwdPos s.agent_pos action).1 (fwdPos s.agent_pos action).2

/-- Model of np_random.integers(2) from one unit-interval draw. -/
def integersTwo (u : ℚ) : Fin 2 :=
  if u < 1 / 2 then 0 else 1

/-- Model of the test np_random.random() < 0.5 from one draw. -/
def coinFlip (u : ℚ) : Bool :=
  decide (u < 1 / 2)

/-- Model of one component of np_random.uniform(-1, 1) from one
unit-interval draw. -/
def uniformNeg1To1 (u : ℚ) : ℚ :=
  2 * u - 1

/-- Data produced by TMaze.reset in main_dqn.py that the claims are
about: the generated layout, the episode counter after the increment,
the grid after the initial gen_obs, and the first arrow. -/
structure ResetResult where
  gen : GenResult
  numEpisodes : ℕ
  grid : TGrid
  arrow : Fin 4 → ℚ

/-- TMaze.reset of src/main_dqn.py.  The process-wide episode counter
increments first; the seed determines the generator stream rng, whose
draws are consumed in program order: integers(2) for the goal side in
_gen_grid, then inside gen_obs four random() coins (only when the
incremented counter is at or below the threshold; above it the coin
loop is not executed), then the four uniform(-1, 1) components of the
arrow noise. -/
def resetDQN (width height threshold : ℕ) (rng : ℕ → ℚ)
    (numEpisodesBefore : ℕ) : ResetResult :=
  let n := numEpisodesBefore + 1
  let choice := integersTwo (rng 0)
  let R := genGridDQN width height choice
  let coins : Fin 4 → Bool := fun i => coinFlip (rng (1 + i.val))
  let noise : Fin 4 → ℚ :=
    if threshold < n then fun i => uniformNeg1To1 (rng (1 + i.val))
    else fun i => uniformNeg1To1 (rng (5 + i.val))
  let O := genObsDQN width height R.grid R.goal_position R.agent_pos
    R.arrow_q_values n threshold coins noise
  { gen := R, numEpisodes := n, grid := O.grid, arrow := O.arrow }

/-- Modelled from the spec: GatedAgent._last_gate of networks.py, a
file of this repository absent from src/.  The spec actor-critic
interface reports took_heavy_branch; per the comment beside the penalty
lines in src/main.py the subtraction fires when the heavy branch was
used, so the gate value is 0 when the heavy branch ran and 1 when the
cheap branch ran. -/
def lastGateOf (tookHeavyBranch : Bool) : ℚ :=
  if tookHeavyBranch then 0 else 1

/-- The compute-penalty lines of src/main.py:
penalty = (1 - gate) * compute_penalty and reward -= penalty. -/
def storedReward (envReward gate computePenalty : ℚ) : ℚ :=
  envReward - (1 - gate) * computePenalty

/-- The nextnonterminal factor of the GAE backward loop in src/main.py:
1 - next_done at the last step of the rollout, else 1 - dones[t+1]. -/
def nextNonTerminal (dones : ℕ → ℚ) (nextDone : ℚ) (T t : ℕ) : ℚ :=
  if t = T - 1 then 1 - nextDone else 1 - dones (t + 1)

/-- The nextvalues factor of the GAE backward loop in src/main.py: the
bootstrap value at the last step of the rollout, else values[t+1]. -/
def nextValues (values : ℕ → ℚ) (nextValue : ℚ) (T t : ℕ) : ℚ :=
  if t = T - 1 then nextValue else values (t + 1)

/-- The delta term of the GAE backward loop in src/main.py. -/
def gaeDelta (γ : ℚ) (rewards values dones : ℕ → ℚ)
    (nextValue nextDone : ℚ) (T t : ℕ) : ℚ :=
  rewards t + γ * nextValues values nextValue T t *
    nextNonTerminal dones nextDone T t - values t

/-- The backward loop body of the GAE computation in src/main.py,
walking the given index list and threading the advantages array and the
lastgaelam accumulator. -/
def gaeLoop (γ lam : ℚ) (rewards values dones : ℕ → ℚ)
    (nextValue nextDone : ℚ) (T : ℕ) :
    List ℕ → (ℕ → ℚ) × ℚ → (ℕ → ℚ) × ℚ
  | [], acc => acc
  | t :: ts, (adv, lastgaelam) =>
    let a := gaeDelta γ rewards values dones nextValue nextDone T t +
      γ * lam * nextNonTerminal dones nextDone T t * lastgaelam
    gaeLoop γ lam rewards values dones nextValue nextDone T ts
      (Function.update adv t a, a)

/-- The advantages tensor after the backward loop of src/main.py: start
from zeros and a zero accumulator and walk t from T - 1 down to 0. -/
def advantages (γ lam : ℚ) (rewards values dones : ℕ → ℚ)
    (nextValue nextDone : ℚ) (T : ℕ) : ℕ → ℚ :=
  (gaeLoop γ lam rewards values dones nextValue nextDone T
    (List.range T).reverse (fun _ => 0, 0)).1

/-- The returns tensor of src/main.py: advantages + values. -/
def gaeReturns (γ lam : ℚ) (rewards values dones : ℕ → ℚ)
    (nextValue nextDone : ℚ) (T : ℕ) (t : ℕ) : ℚ :=
  advantages γ lam rewards values dones nextValue nextDone T t + values t

/-- The closed-form downward recursion the GAE loop is claimed to
satisfy: the value at t is delta plus the discounted continuation at
t + 1, with value zero at and beyond the horizon. -/
def advRec (γ lam : ℚ) (rewards values dones : ℕ → ℚ)
    (nextValue nextDone : ℚ) (T : ℕ) (t : ℕ) : ℚ :=
  if _h : t < T then
    gaeDelta γ rewards values dones nextValue nextDone T t +
      γ * lam * nextNonTerminal dones nextDone T t *
        advRec γ lam rewards values dones nextValue nextDone T (t + 1)
  else 0
termination_by T - t
decreasing_by omega

/-- Concrete DQN grid used by witnesses: size 11 (the registered
configuration), goal side left. -/
def gridLeft : TGrid := (genGridDQN 11 11 0).grid

/-- Concrete DQN grid used by counterexamples: size 11, goal right. -/
def gridRight : TGrid := (genGridDQN 11 11 1).grid

/-- Concrete environment state at the start pose of the size-11 maze
(max_steps = 2 * 11 * 11 = 242 per the constructor default). -/
def stateStart : EnvState :=
  { grid := gridLeft, agent_pos := (5, 9), step_count := 0, max_steps := 242 }

/-- Concrete state one cell right of the left goal corner. -/
def stateNearGoal : EnvState :=
  { grid := gridLeft, agent_pos := (2, 1), step_count := 3, max_steps := 242 }

/-- Concrete state one cell left of the lava corner (goal left). -/
def stateNearLava : EnvState :=
  { grid := gridLeft, agent_pos := (8, 1), step_count := 7, max_steps := 242 }

/-- Concrete state next to the goal with one step left on the clock. -/
def stateNearGoalLast : EnvState :=
  { grid := gridLeft, agent_pos := (2, 1), step_count := 241, max_steps := 242 }

/-- Concrete noise vector for arrow statements. -/
def noiseSample : Fin 4 → ℚ := fun i => (i.val : ℚ) / 7

/-- Concrete generator stream used by the reset counterexample. -/
def rngSample : ℕ → ℚ := fun k => (k : ℚ) / 10

/-- All-false coin vector (no stochastic decoy placed). -/
def coinsFalse : Fin 4 → Bool := fun _ => false

/-- All-zero noise vector. -/
def noiseZero : Fin 4 → ℚ := fun _ => 0

/-- All-zero arrow vector. -/
def arrowZero : Fin 4 → ℚ := fun _ => 0

/-- Constant-one reward sequence for the GAE witness. -/
def seqOne : ℕ → ℚ := fun _ => 1

/-- Constant-zero sequence for the GAE witness. -/
def seqZero : ℕ → ℚ := fun _ => 0

/-! ## Grid lemmas -/

theorem TGrid.get_set (g : TGrid) (x y i j : ℕ) (o : Option WObj) :
    (g.set x y o).get i j = if i = x ∧ j = y then o else g.get i j := rfl

theorem TGrid.horzWall_get_or (x y n : ℕ) (g : TGrid) (i j : ℕ) :
    (g.horzWall x y n).get i j = some WObj.wall ∨
      (g.horzWall x y n).get i j = g.get i j := by
  induction n generalizing g with
  | zero => right; rfl
  | succ n ih =>
    rcases ih (g.set (x + n) y (some WObj.wall)) with h | h
    · left; exact h
    · rw [TGrid.horzWall, h, TGrid.get_set]
      by_cases hij : i = x + n ∧ j = y
      · left; rw [if_pos hij]
      · right; rw [if_neg hij]

theorem TGrid.vertWall_get_or (x y n : ℕ) (g : TGrid) (i j : ℕ) :
    (g.vertWall x y n).get i j = some WObj.wall ∨
      (g.vertWall x y n).get i j = g.get i j := by
  induction n generalizing g with
  | zero => right; rfl
  | succ n ih =>
    rcases ih (g.set x (y + n) (some WObj.wall)) with h | h
    · left; exact h
    · rw [TGrid.vertWall, h, TGrid.get_set]
      by_cases hij : i = x ∧ j = y + n
      · left; rw [if_pos hij]
      · right; rw [if_neg hij]

theorem TGrid.wallRect_get_or (g : TGrid) (x y w h i j : ℕ) :
    (g.wallRect x y w h).get i j = some WObj.wall ∨
      (g.wallRect x y w h).get i j = g.get i j := by
  unfold TGrid.wallRect
  rcases TGrid.vertWall_get_or (x + w - 1) y h
      (((g.horzWall x y w).horzWall x (y + h - 1) w).vertWall x y h) i j with h1 | h1
  · left; exact h1
  rw [h1]
  rcases TGrid.vertWall_get_or x y h ((g.horzWall x y w).horzWall x (y + h - 1) w)
      i j with h2 | h2
  · left; exact h2
  rw [h2]
  rcases TGrid.horzWall_get_or x (y + h - 1) w (g.horzWall x y w) i j with h3 | h3
  · left; exact h3
  rw [h3]
  rcases TGrid.horzWall_get_or x y w g i j with h4 | h4
  · left; exact h4
  · right; exact h4

/-- Every cell of the wall skeleton produced by the seven wall calls of
_gen_grid (shared by both files) is a wall or empty. -/
theorem tmazeWalls_only (width height i j : ℕ) :
    (tmazeWalls width height).get i j = some WObj.wall ∨
      (tmazeWalls width height).get i j = none := by
  unfold tmazeWalls
  set g0 := emptyGrid width height with hg0
  set g1 := g0.wallRect 0 0 width height with hg1
  set g2 := g1.vertWall (width / 2 - 1) 2 (height - 3) with hg2
  set g3 := g2.vertWall (width / 2 + 1) 2 (height - 3) with hg3
  set g4 := g3.horzWall 0 0 width with hg4
  set g5 := g4.horzWall 0 2 (width / 2) with hg5
  rcases TGrid.horzWall_get_or (width / 2 + 1) 2 (width / 2) g5 i j with h | h
  · left; exact h
  rw [h]
  rcases TGrid.horzWall_get_or 0 2 (width / 2) g4 i j with h | h
  · left; exact h
  rw [h]
  rcases TGrid.horzWall_get_or 0 0 width g3 i j with h | h
  · left; exact h
  rw [h]
  rcases TGrid.vertWall_get_or (width / 2 + 1) 2 (height - 3) g2 i j with h | h
  · left; exact h
  rw [h]
  rcases TGrid.vertWall_get_or (width / 2 - 1) 2 (height - 3) g1 i j with h | h
  · left; exact h
  rw [h]
  rcases TGrid.wallRect_get_or g0 0 0 width height i j with h | h
  · left; exact h
  · right; exact h

theorem genGridDQN_fields (width height : ℕ) :
    (genGridDQN width height 0).goal_position = (1, 1) ∧
      (genGridDQN width height 0).lava_position = (width - 2, 1) ∧
      (genGridDQN width height 1).goal_position = (width - 2, 1) ∧
      (genGridDQN width height 1).lava_position = (1, 1) :=
  ⟨rfl, rfl, rfl, rfl⟩

theorem genGridDQN_grid_get (width height : ℕ) (choice : Fin 2) (x y : ℕ) :
    (genGridDQN width height choice).grid.get x y =
      if x = (genGridDQN width height choice).lava_position.1 ∧
          y = (genGridDQN width height choice).lava_position.2 then
        some WObj.lava
      else if x = (genGridDQN width height choice).goal_position.1 ∧
          y = (genGridDQN width height choice).goal_position.2 then
        some (WObj.goal GoalColor.green)
      else (tmazeWalls width height).get x y := rfl

theorem genGridPPO_fields (width height : ℕ) :
    (genGridPPO width height 0).goal_position = (1, 1) ∧
      (genGridPPO width height 1).goal_position = (width - 2, 1) :=
  ⟨rfl, rfl⟩

theorem genGridPPO_grid_get (width height : ℕ) (choice : Fin 2) (x y : ℕ) :
    (genGridPPO width height choice).grid.get x y =
      if x = (genGridPPO width height choice).goal_position.1 ∧
          y = (genGridPPO width height choice).goal_position.2 then
        some (WObj.goal GoalColor.green)
      else (tmazeWalls width height).get x y := rfl

/-- Placing an object writes exactly that cell. -/
theorem set_get_self (W : TGrid) (p : ℕ × ℕ) (o : Option WObj) :
    (W.set p.1 p.2 o).get p.1 p.2 = o := by
  rw [TGrid.get_set]; exact if_pos ⟨rfl, rfl⟩

/-- Characterization of green-goal cells after the two placements of
_gen_grid in main_dqn.py over a walls-only skeleton. -/
theorem set2_get_goal_iff (W : TGrid)
    (hW : ∀ i j, W.get i j = some WObj.wall ∨ W.get i j = none)
    (gp lp : ℕ × ℕ) (hne : gp ≠ lp) (x y : ℕ) :
    ((W.set gp.1 gp.2 (some (WObj.goal GoalColor.green))).set lp.1 lp.2
        (some WObj.lava)).get x y = some (WObj.goal GoalColor.green) ↔
      (x, y) = gp := by
  rw [TGrid.get_set, TGrid.get_set]
  constructor
  · intro h
    by_cases h1 : x = lp.1 ∧ y = lp.2
    · rw [if_pos h1] at h; simp at h
    · rw [if_neg h1] at h
      by_cases h2 : x = gp.1 ∧ y = gp.2
      · rw [h2.1, h2.2]
      · rw [if_neg h2] at h
        rcases hW x y with hwall | hwall <;> rw [hwall] at h <;> simp at h
  · intro h
    rw [Prod.ext_iff] at h
    have hx : x = gp.1 := h.1
    have hy : y = gp.2 := h.2
    have h1 : ¬(x = lp.1 ∧ y = lp.2) := by
      rintro ⟨ha, hb⟩
      exact hne (by rw [← Prod.mk.eta (p := gp), ← Prod.mk.eta (p := lp), ← hx, ← hy,
        ← ha, ← hb])
    rw [if_neg h1, if_pos ⟨hx, hy⟩]

/-- Characterization of lava cells after the two placements of
_gen_grid in main_dqn.py over a walls-only skeleton. -/
theorem set2_get_lava_iff (W : TGrid)
    (hW : ∀ i j, W.get i j = some WObj.wall ∨ W.get i j = none)
    (gp lp : ℕ × ℕ) (x y : ℕ) :
    ((W.set gp.1 gp.2 (some (WObj.goal GoalColor.green))).set lp.1 lp.2
        (some WObj.lava)).get x y = some WObj.lava ↔ (x, y) = lp := by
  rw [TGrid.get_set, TGrid.get_set]
  constructor
  · intro h
    by_cases h1 : x = lp.1 ∧ y = lp.2
    · rw [h1.1, h1.2]
    · rw [if_neg h1] at h
      by_cases h2 : x = gp.1 ∧ y = gp.2
      · rw [if_pos h2] at h; simp at h
      · rw [if_neg h2] at h
        rcases hW x y with hwall | hwall <;> rw [hwall] at h <;> simp at h
  · intro h
    rw [Prod.ext_iff] at h
    rw [if_pos ⟨h.1, h.2⟩]

/-- The grid of _gen_grid in main.py holds no lava anywhere. -/
theorem set1_no_lava (W : TGrid)
    (hW : ∀ i j, W.get i j = some WObj.wall ∨ W.get i j = none)
    (gp : ℕ × ℕ) (x y : ℕ) :
    (W.set gp.1 gp.2 (some (WObj.goal GoalColor.green))).get x y ≠
      some WObj.lava := by
  rw [TGrid.get_set]
  by_cases h1 : x = gp.1 ∧ y = gp.2
  · rw [if_pos h1]; simp
  · rw [if_neg h1]
    rcases hW x y with hwall | hwall <;> rw [hwall] <;> simp

/-- C2 (amended).  In main_dqn.py every reset places exactly one green
Goal and exactly one Lava hazard, one at each of the designated corners
(1, 1) and (width - 2, 1); the two possible values of the uniform
binary draw np_random.integers(2) yield the two distinct assignments,
and the corners never hold the same kind of object.  In main.py only
the Goal is placed at the drawn corner; no Lava is placed anywhere. -/
theorem C2_corner_objects (width height : ℕ) (hw : 4 ≤ width) (choice : Fin 2) :
    ((genGridDQN width height choice).goal_position = (1, 1) ∨
      (genGridDQN width height choice).goal_position = (width - 2, 1))
    ∧ ((genGridDQN width height choice).lava_position = (1, 1) ∨
      (genGridDQN width height choice).lava_position = (width - 2, 1))
    ∧ (genGridDQN width height choice).goal_position ≠
        (genGridDQN width height choice).lava_position
    ∧ (genGridDQN width height choice).grid.get
        (genGridDQN width height choice).goal_position.1
        (genGridDQN width height choice).goal_position.2
        = some (WObj.goal GoalColor.green)
    ∧ (genGridDQN width height choice).grid.get
        (genGridDQN width height choice).lava_position.1
        (genGridDQN width height choice).lava_position.2
        = some WObj.lava
    ∧ (∀ x y, (genGridDQN width height choice).grid.get x y =
        some (WObj.goal GoalColor.green) ↔
        (x, y) = (genGridDQN width height choice).goal_position)
    ∧ (∀ x y, (genGridDQN width height choice).grid.get x y = some WObj.lava ↔
        (x, y) = (genGridDQN width height choice).lava_position)
    ∧ (genGridDQN width height 0).goal_position = (1, 1)
    ∧ (genGridDQN width height 1).goal_position = (width - 2, 1)
    ∧ (genGridPPO width height choice).grid.get
        (genGridPPO width height choice).goal_position.1
        (genGridPPO width height choice).goal_position.2
        = some (WObj.goal GoalColor.green)
    ∧ (∀ x y, (genGridPPO width height choice).grid.get x y ≠ some WObj.lava) := by
  have hW : ∀ i j, (tmazeWalls width height).get i j = some WObj.wall ∨
      (tmazeWalls width height).get i j = none :=
    fun i j => tmazeWalls_only width height i j
  have hchoice : choice = 0 ∨ choice = 1 := by
    rcases choice with ⟨v, hv⟩
    interval_cases v
    · left; rfl
    · right; rfl
  have hne01 : ((1, 1) : ℕ × ℕ) ≠ (width - 2, 1) := by
    intro h; rw [Prod.mk.injEq] at h; omega
  have hne10 : ((width - 2, 1) : ℕ × ℕ) ≠ (1, 1) := by
    intro h; rw [Prod.mk.injEq] at h; omega
  rcases hchoice with rfl | rfl
  · exact ⟨Or.inl rfl, Or.inr rfl, hne01,
      (set2_get_goal_iff (tmazeWalls width height) hW (1, 1) (width - 2, 1)
        hne01 1 1).mpr rfl,
      (set2_get_lava_iff (tmazeWalls width height) hW (1, 1) (width - 2, 1)
        (width - 2) 1).mpr rfl,
      fun x y => set2_get_goal_iff (tmazeWalls width height) hW (1, 1)
        (width - 2, 1) hne01 x y,
      fun x y => set2_get_lava_iff (tmazeWalls width height) hW (1, 1)
        (width - 2, 1) x y,
      rfl, rfl,
      set_get_self (tmazeWalls width height) (1, 1)
        (some (WObj.goal GoalColor.green)),
      fun x y => set1_no_lava (tmazeWalls width height) hW (1, 1) x y⟩
  · exact ⟨Or.inr rfl, Or.inl rfl, hne10,
      (set2_get_goal_iff (tmazeWalls width height) hW (width - 2, 1) (1, 1)
        hne10 (width - 2) 1).mpr rfl,
      (set2_get_lava_iff (tmazeWalls width height) hW (width - 2, 1) (1, 1)
        1 1).mpr rfl,
      fun x y => set2_get_goal_iff (tmazeWalls width height) hW (width - 2, 1)
        (1, 1) hne10 x y,
      fun x y => set2_get_lava_iff (tmazeWalls width height) hW (width - 2, 1)
        (1, 1) x y,
      rfl, rfl,
      set_get_self (tmazeWalls width height) (width - 2, 1)
        (some (WObj.goal GoalColor.green)),
      fun x y => set1_no_lava (tmazeWalls width height) hW (width - 2, 1) x y⟩

/-- Witness for C2_corner_objects at the registered size 11 with the
left goal draw. -/
theorem C2_corner_objects_witness :
    (4 ≤ 11)
    ∧ (genGridDQN 11 11 0).goal_position = (1, 1)
    ∧ (genGridDQN 11 11 0).grid.get 1 1 = some (WObj.goal GoalColor.green)
    ∧ (genGridDQN 11 11 0).grid.get 9 1 = some WObj.lava
    ∧ (genGridPPO 11 11 0).grid.get 1 1 = some (WObj.goal GoalColor.green) := by
  have h := C2_corner_objects 11 11 (by norm_num) 0
  exact ⟨by norm_num, h.2.2.2.2.2.2.2.1, h.2.2.2.1, h.2.2.2.2.1, h.2.2.2.2.2.2.2.2.2.1⟩

/-- Counterexample to C2 as stated: in src/main.py, with the draw that
puts the Goal at (1, 1) on a size-9 grid, the opposite designated
corner (7, 1) is empty, so no Hazard is placed at it and the claim that
every reset places exactly one Goal and exactly one Hazard at the two
corners fails on this file. -/
theorem C2_counterexample :
    (genGridPPO 9 9 0).goal_position = (1, 1)
    ∧ (genGridPPO 9 9 0).grid.get 1 1 = some (WObj.goal GoalColor.green)
    ∧ (genGridPPO 9 9 0).grid.get 7 1 = none := by
  refine ⟨rfl, by decide, by decide⟩

/-- C6.  The stored reward of the PPO rollout equals the environment
reward minus the compute penalty exactly when the actor-critic reports
the heavy branch, and is unchanged otherwise.  The gate report is
modelled from the spec (networks.py is absent from src/), with the
encoding fixed by the comment beside the penalty lines in main.py. -/
theorem C6_compute_penalty (envReward computePenalty : ℚ) (took : Bool) :
    storedReward envReward (lastGateOf took) computePenalty =
      if took then envReward - computePenalty else envReward := by
  cases took <;> simp [storedReward, lastGateOf]

/-- C1 (code bug in src/main.py; the main_dqn.py behavior is correct).
In main_dqn.py the arrow equals the arrow_q_values encoding of the true
goal side exactly at the decision cell (centre column (height - 1) / 2
of the top interior row), and elsewhere equals the uniform noise draw,
which is the same value under either goal-side assignment (the last two
conjuncts use the same noise vector for both assignments).  In main.py
the decision-cell hint computation applies float() to the 2-element
boolean array arrow_position and raises TypeError for both goal sides,
while away from the decision cell the hint is the constant 0 rather
than random noise. -/
theorem C1_decision_cell_hint :
    genObsArrowPPO 9 (4, 1) (genGridPPO 9 9 0).arrow_position =
      PyScalarResult.typeError
    ∧ genObsArrowPPO 9 (4, 1) (genGridPPO 9 9 1).arrow_position =
      PyScalarResult.typeError
    ∧ genObsArrowPPO 9 (4, 2) (genGridPPO 9 9 0).arrow_position =
      PyScalarResult.ok 0
    ∧ genObsArrowPPO 9 (3, 1) (genGridPPO 9 9 1).arrow_position =
      PyScalarResult.ok 0
    ∧ (genObsDQN 11 11 gridRight (genGridDQN 11 11 1).goal_position (5, 1)
        (genGridDQN 11 11 1).arrow_q_values 1 2000 (fun _ => false)
        noiseSample).arrow = (genGridDQN 11 11 1).arrow_q_values
    ∧ (genObsDQN 11 11 gridLeft (genGridDQN 11 11 0).goal_position (5, 1)
        (genGridDQN 11 11 0).arrow_q_values 1 2000 (fun _ => false)
        noiseSample).arrow = (genGridDQN 11 11 0).arrow_q_values
    ∧ (genGridDQN 11 11 1).arrow_q_values 1 = 1
    ∧ (genGridDQN 11 11 1).arrow_q_values 0 = 0
    ∧ (genGridDQN 11 11 0).arrow_q_values 0 = 1
    ∧ (genGridDQN 11 11 0).arrow_q_values 1 = 0
    ∧ (genObsDQN 11 11 gridRight (genGridDQN 11 11 1).goal_position (5, 9)
        (genGridDQN 11 11 1).arrow_q_values 1 2000 (fun _ => false)
        noiseSample).arrow = noiseSample
    ∧ (genObsDQN 11 11 gridLeft (genGridDQN 11 11 0).goal_position (5, 9)
        (genGridDQN 11 11 0).arrow_q_values 1 2000 (fun _ => false)
        noiseSample).arrow = noiseSample :=
  ⟨rfl, rfl, rfl, rfl, rfl, rfl, rfl, rfl, rfl, rfl, rfl, rfl⟩

/-- The four movement branches of step agree with the fwdPos form. -/
theorem stepDQN_movement (s : EnvState) (a : ℕ) (ha : a < 4) :
    stepDQN s a = finishStep (moveAttempt
      { s with step_count := s.step_count + 1 } (fwdPos s.agent_pos a)) := by
  interval_cases a <;> rfl

/-- C3.  One step of TMaze in main_dqn.py: a non-traversable target
cell leaves the agent position unchanged; a goal-type target cell
terminates with the shaped reward 1 - 0.9 * (step_count / max_steps)
evaluated at the incremented counter; a lava target cell terminates
with zero reward; and when the incremented counter reaches max_steps
with neither goal nor lava entered, the step reports truncated true,
terminated false and zero reward. -/
theorem C3_step_semantics (s : EnvState) (a : ℕ) (ha : a < 4) :
    ((∃ o, fwdCell s a = some o ∧ o.canOverlap = false) →
      (stepDQN s a).stateOf.agent_pos = s.agent_pos)
    ∧ (∀ c, fwdCell s a = some (WObj.goal c) →
      (stepDQN s a).terminatedOf = true ∧
        (stepDQN s a).rewardOf = rewardFn (s.step_count + 1) s.max_steps)
    ∧ (fwdCell s a = some WObj.lava →
      (stepDQN s a).terminatedOf = true ∧ (stepDQN s a).rewardOf = 0)
    ∧ ((∀ c, fwdCell s a ≠ some (WObj.goal c)) → fwdCell s a ≠ some WObj.lava →
      s.max_steps ≤ s.step_count + 1 →
      (stepDQN s a).truncatedOf = true ∧ (stepDQN s a).terminatedOf = false ∧
        (stepDQN s a).rewardOf = 0) := by
  rw [stepDQN_movement s a ha]
  rcases hc : fwdCell s a with - | o
  · have hcell : ({ s with step_count := s.step_count + 1 } : EnvState).grid.get
        (fwdPos s.agent_pos a).1 (fwdPos s.agent_pos a).2 = none := hc
    refine ⟨?_, ?_, ?_, ?_⟩
    · rintro ⟨o, ho, -⟩; exact Option.noConfusion ho
    · intro c hgoal; exact Option.noConfusion hgoal
    · intro hlava; exact Option.noConfusion hlava
    · intro _ _ hm
      simp [moveAttempt, finishStep, hcell, isGoalCell, isLavaCell, canOverlapOpt,
        StepOutcome.truncatedOf, StepOutcome.terminatedOf, StepOutcome.rewardOf]
      omega
  · have hcell : ({ s with step_count := s.step_count + 1 } : EnvState).grid.get
        (fwdPos s.agent_pos a).1 (fwdPos s.agent_pos a).2 = some o := hc
    cases o with
    | wall =>
      refine ⟨?_, ?_, ?_, ?_⟩
      · intro _
        simp [moveAttempt, finishStep, hcell, canOverlapOpt, WObj.canOverlap,
          StepOutcome.stateOf]
      · intro c hgoal; exact WObj.noConfusion (Option.some.inj hgoal)
      · intro hlava; exact WObj.noConfusion (Option.some.inj hlava)
      · intro _ _ hm
        simp [moveAttempt, finishStep, hcell, isGoalCell, isLavaCell, canOverlapOpt,
          WObj.canOverlap, StepOutcome.truncatedOf, StepOutcome.terminatedOf,
          StepOutcome.rewardOf]
        omega
    | goal c0 =>
      refine ⟨?_, ?_, ?_, ?_⟩
      · rintro ⟨o, ho, hov⟩
        rcases Option.some.inj ho with rfl
        simp [WObj.canOverlap] at hov
      · intro c hgoal
        simp [moveAttempt, finishStep, hcell, isGoalCell, isLavaCell, canOverlapOpt,
          WObj.canOverlap, StepOutcome.terminatedOf, StepOutcome.rewardOf]
      · intro hlava; exact WObj.noConfusion (Option.some.inj hlava)
      · intro hng _ _
        exact absurd rfl (hng c0)
    | lava =>
      refine ⟨?_, ?_, ?_, ?_⟩
      · rintro ⟨o, ho, hov⟩
        rcases Option.some.inj ho with rfl
        simp [WObj.canOverlap] at hov
      · intro c hgoal; exact WObj.noConfusion (Option.some.inj hgoal)
      · intro _
        simp [moveAttempt, finishStep, hcell, isGoalCell, isLavaCell, canOverlapOpt,
          WObj.canOverlap, StepOutcome.terminatedOf, StepOutcome.rewardOf]
      · intro _ hnl _
        exact absurd rfl hnl

/-- Witness for C3_step_semantics: stepping left into the green goal
from (2, 1) on the concrete size-11 grid. -/
theorem C3_step_semantics_witness :
    (0 < 4)
    ∧ fwdCell stateNearGoal 0 = some (WObj.goal GoalColor.green)
    ∧ (stepDQN stateNearGoal 0).terminatedOf = true
    ∧ (stepDQN stateNearGoal 0).rewardOf =
        rewardFn (stateNearGoal.step_count + 1) stateNearGoal.max_steps := by
  have h := C3_step_semantics stateNearGoal 0 (by norm_num)
  have hcell : fwdCell stateNearGoal 0 = some (WObj.goal GoalColor.green) := by
    decide
  exact ⟨by norm_num, hcell, (h.2.1 GoalColor.green hcell).1,
    (h.2.1 GoalColor.green hcell).2⟩

/-- C7 (amended).  For an action value outside the enumerated movement
set, step raises an error only after the step counter has already been
incremented; the raised error is the AttributeError produced by the
missing enum member done, so the explicit invalid-action ValueError
is unreachable; the agent pose and the grid are unchanged. -/
theorem C7_invalid_action (s : EnvState) (a : ℕ) (ha : 4 ≤ a) :
    stepDQN s a = StepOutcome.error PyError.attributeErrorDone
        { s with step_count := s.step_count + 1 }
    ∧ (stepDQN s a).stateOf.agent_pos = s.agent_pos
    ∧ (stepDQN s a).stateOf.grid = s.grid
    ∧ (stepDQN s a).stateOf.step_count = s.step_count + 1
    ∧ (stepDQN s a).errorOf = some PyError.attributeErrorDone
    ∧ (stepDQN s a).errorOf ≠ some PyError.valueErrorUnknownAction := by
  have h0 : a ≠ 0 := by omega
  have h1 : a ≠ 1 := by omega
  have h2 : a ≠ 2 := by omega
  have h3 : a ≠ 3 := by omega
  have hstep : stepDQN s a = StepOutcome.error PyError.attributeErrorDone
      { s with step_count := s.step_count + 1 } := by
    simp [stepDQN, h0, h1, h2, h3]
  refine ⟨hstep, ?_, ?_, ?_, ?_, ?_⟩ <;> rw [hstep] <;>
    simp [StepOutcome.stateOf, StepOutcome.errorOf]

/-- Counterexample to C7 as stated: on the concrete start state of the
size-11 maze, the invalid action 7 raises the AttributeError coming
from the missing member done (not the explicit invalid-action
ValueError), and the step counter has been incremented when the error
is raised, so the state is mutated before raising. -/
theorem C7_counterexample :
    (stepDQN stateStart 7).errorOf = some PyError.attributeErrorDone
    ∧ (stepDQN stateStart 7).errorOf ≠ some PyError.valueErrorUnknownAction
    ∧ (stepDQN stateStart 7).stateOf.step_count = stateStart.step_count + 1
    ∧ ¬((stepDQN stateStart 7).stateOf.step_count = stateStart.step_count) := by
  exact ⟨by decide, by decide, by decide, by decide⟩

/-- Witness for C7_invalid_action at the concrete start state with
action 9. -/
theorem C7_invalid_action_witness :
    (4 ≤ 9)
    ∧ (stepDQN stateStart 9).errorOf = some PyError.attributeErrorDone
    ∧ (stepDQN stateStart 9).stateOf.step_count = stateStart.step_count + 1
    ∧ (stepDQN stateStart 9).stateOf.agent_pos = stateStart.agent_pos := by
  have h := C7_invalid_action stateStart 9 (by norm_num)
  exact ⟨by norm_num, h.2.2.2.2.1, h.2.2.2.1, h.2.1⟩

/-- C10.  Entering a goal-type cell on the very step at which the
incremented counter reaches max_steps reports terminated and truncated
both true, and the reward is still the full shaped goal reward,
1 - 0.9 at equal counters. -/
theorem C10_goal_at_max_steps (s : EnvState) (a : ℕ) (c : GoalColor) (ha : a < 4)
    (hc : fwdCell s a = some (WObj.goal c))
    (hm : s.step_count + 1 = s.max_steps) (hpos : 0 < s.max_steps) :
    (stepDQN s a).terminatedOf = true
    ∧ (stepDQN s a).truncatedOf = true
    ∧ (stepDQN s a).rewardOf = rewardFn (s.step_count + 1) s.max_steps
    ∧ (stepDQN s a).rewardOf = 1 - 9 / 10 := by
  rw [stepDQN_movement s a ha]
  have hcell : ({ s with step_count := s.step_count + 1 } : EnvState).grid.get
      (fwdPos s.agent_pos a).1 (fwdPos s.agent_pos a).2 = some (WObj.goal c) := hc
  have hr : (finishStep (moveAttempt { s with step_count := s.step_count + 1 }
      (fwdPos s.agent_pos a))).rewardOf = rewardFn (s.step_count + 1) s.max_steps := by
    simp [moveAttempt, finishStep, hcell, isGoalCell, StepOutcome.rewardOf]
  refine ⟨?_, ?_, hr, ?_⟩
  · simp [moveAttempt, finishStep, hcell, isGoalCell, StepOutcome.terminatedOf]
  · simp [moveAttempt, finishStep, hcell, isGoalCell, isLavaCell, canOverlapOpt,
      WObj.canOverlap, StepOutcome.truncatedOf]
    omega
  · rw [hr, hm, rewardFn, div_self (Nat.cast_ne_zero.mpr hpos.ne'), mul_one]

/-- Witness for C10_goal_at_max_steps: entering the goal from (2, 1)
with one step left on the clock of the size-11 maze. -/
theorem C10_goal_at_max_steps_witness :
    (0 < 4)
    ∧ fwdCell stateNearGoalLast 0 = some (WObj.goal GoalColor.green)
    ∧ stateNearGoalLast.step_count + 1 = stateNearGoalLast.max_steps
    ∧ 0 < stateNearGoalLast.max_steps
    ∧ (stepDQN stateNearGoalLast 0).terminatedOf = true
    ∧ (stepDQN stateNearGoalLast 0).truncatedOf = true
    ∧ (stepDQN stateNearGoalLast 0).rewardOf = 1 - 9 / 10 := by
  have hc : fwdCell stateNearGoalLast 0 = some (WObj.goal GoalColor.green) := by
    decide
  have h := C10_goal_at_max_steps stateNearGoalLast 0 GoalColor.green
    (by norm_num) hc rfl (by decide)
  exact ⟨by norm_num, hc, rfl, by decide, h.1, h.2.1, h.2.2.2⟩

/-! ## Decoy placement lemmas -/

theorem clearBox_get_ne (width height : ℕ) (i : Fin 4) (g : TGrid) (x y : ℕ)
    (h : ¬(x = (boxAt width height i).1 ∧ y = (boxAt width height i).2)) :
    (clearBox width height i g).get x y = g.get x y := by
  rw [clearBox, TGrid.get_set, if_neg h]

theorem clearBox_get_self (width height : ℕ) (i : Fin 4) (g : TGrid) :
    (clearBox width height i g).get (boxAt width height i).1
      (boxAt width height i).2 = none := by
  rw [clearBox, TGrid.get_set, if_pos ⟨rfl, rfl⟩]

theorem coinStep_get_ne (width height : ℕ) (coins : Fin 4 → Bool) (i : Fin 4)
    (g : TGrid) (x y : ℕ)
    (h : ¬(x = (boxAt width height i).1 ∧ y = (boxAt width height i).2)) :
    (coinStep width height coins i g).get x y = g.get x y := by
  by_cases hc : coins i = true
  · rw [coinStep, if_pos hc, TGrid.get_set, if_neg h]
  · rw [coinStep, if_neg hc]

theorem coinStep_get_self (width height : ℕ) (coins : Fin 4 → Bool) (i : Fin 4)
    (g : TGrid) :
    (coinStep width height coins i g).get (boxAt width height i).1
      (boxAt width height i).2 =
      if coins i then some greyBox
      else g.get (boxAt width height i).1 (boxAt width height i).2 := by
  by_cases hc : coins i = true
  · rw [coinStep, if_pos hc, TGrid.get_set, if_pos ⟨rfl, rfl⟩, if_pos hc]
  · rw [coinStep, if_neg hc, if_neg hc]

/-- Componentwise distinctness of the four candidate decoy cells, for
any grid size of at least 2 in each dimension. -/
theorem boxAt_ne (width height : ℕ) (hw : 2 ≤ width) (hh : 2 ≤ height)
    (i j : Fin 4) (hij : i ≠ j) :
    ¬((boxAt width height i).1 = (boxAt width height j).1 ∧
      (boxAt width height i).2 = (boxAt width height j).2) := by
  have hX : 1 ≤ width * 3 / 4 := by omega
  have hY : 1 ≤ height * 2 / 3 := by omega
  fin_cases i <;> fin_cases j <;> simp_all [boxAt] <;> omega

theorem clearedGrid_get_box (width height : ℕ) (hw : 2 ≤ width)
    (hh : 2 ≤ height) (grid : TGrid) (i : Fin 4) :
    (clearedGrid width height grid).get (boxAt width height i).1
      (boxAt width height i).2 = none := by
  have hne : ∀ a b : Fin 4, a ≠ b →
      ¬((boxAt width height a).1 = (boxAt width height b).1 ∧
        (boxAt width height a).2 = (boxAt width height b).2) :=
    fun a b hab => boxAt_ne width height hw hh a b hab
  fin_cases i
  · show (clearedGrid width height grid).get (boxAt width height 0).1
      (boxAt width height 0).2 = none
    rw [clearedGrid, clearBox_get_ne _ _ _ _ _ _ (hne 0 3 (by decide)),
      clearBox_get_ne _ _ _ _ _ _ (hne 0 2 (by decide)),
      clearBox_get_ne _ _ _ _ _ _ (hne 0 1 (by decide)), clearBox_get_self]
  · show (clearedGrid width height grid).get (boxAt width height 1).1
      (boxAt width height 1).2 = none
    rw [clearedGrid, clearBox_get_ne _ _ _ _ _ _ (hne 1 3 (by decide)),
      clearBox_get_ne _ _ _ _ _ _ (hne 1 2 (by decide)), clearBox_get_self]
  · show (clearedGrid width height grid).get (boxAt width height 2).1
      (boxAt width height 2).2 = none
    rw [clearedGrid, clearBox_get_ne _ _ _ _ _ _ (hne 2 3 (by decide)),
      clearBox_get_self]
  · show (clearedGrid width height grid).get (boxAt width height 3).1
      (boxAt width height 3).2 = none
    rw [clearedGrid, clearBox_get_self]

theorem clearedGrid_get_other (width height : ℕ) (grid : TGrid) (x y : ℕ)
    (h : ∀ i : Fin 4, ¬(x = (boxAt width height i).1 ∧
      y = (boxAt width height i).2)) :
    (clearedGrid width height grid).get x y = grid.get x y := by
  rw [clearedGrid, clearBox_get_ne _ _ _ _ _ _ (h 3),
    clearBox_get_ne _ _ _ _ _ _ (h 2), clearBox_get_ne _ _ _ _ _ _ (h 1),
    clearBox_get_ne _ _ _ _ _ _ (h 0)]

theorem coinChain_get_box (width height : ℕ) (hw : 2 ≤ width)
    (hh : 2 ≤ height) (coins : Fin 4 → Bool) (g : TGrid) (i : Fin 4) :
    (coinChain width height coins g).get (boxAt width height i).1
      (boxAt width height i).2 =
      if coins i then some greyBox
      else g.get (boxAt width height i).1 (boxAt width height i).2 := by
  have hne : ∀ a b : Fin 4, a ≠ b →
      ¬((boxAt width height a).1 = (boxAt width height b).1 ∧
        (boxAt width height a).2 = (boxAt width height b).2) :=
    fun a b hab => boxAt_ne width height hw hh a b hab
  fin_cases i
  · show (coinChain width height coins g).get (boxAt width height 0).1
      (boxAt width height 0).2 =
      if coins 0 then some greyBox
      else g.get (boxAt width height 0).1 (boxAt width height 0).2
    rw [coinChain, coinStep_get_ne _ _ _ _ _ _ _ (hne 0 3 (by decide)),
      coinStep_get_ne _ _ _ _ _ _ _ (hne 0 2 (by decide)),
      coinStep_get_ne _ _ _ _ _ _ _ (hne 0 1 (by decide)), coinStep_get_self]
  · show (coinChain width height coins g).get (boxAt width height 1).1
      (boxAt width height 1).2 =
      if coins 1 then some greyBox
      else g.get (boxAt width height 1).1 (boxAt width height 1).2
    rw [coinChain, coinStep_get_ne _ _ _ _ _ _ _ (hne 1 3 (by decide)),
      coinStep_get_ne _ _ _ _ _ _ _ (hne 1 2 (by decide)), coinStep_get_self,
      coinStep_get_ne _ _ _ _ _ _ _ (hne 1 0 (by decide))]
  · show (coinChain width height coins g).get (boxAt width height 2).1
      (boxAt width height 2).2 =
      if coins 2 then some greyBox
      else g.get (boxAt width height 2).1 (boxAt width height 2).2
    rw [coinChain, coinStep_get_ne _ _ _ _ _ _ _ (hne 2 3 (by decide)),
      coinStep_get_self, coinStep_get_ne _ _ _ _ _ _ _ (hne 2 1 (by decide)),
      coinStep_get_ne _ _ _ _ _ _ _ (hne 2 0 (by decide))]
  · show (coinChain width height coins g).get (boxAt width height 3).1
      (boxAt width height 3).2 =
      if coins 3 then some greyBox
      else g.get (boxAt width height 3).1 (boxAt width height 3).2
    rw [coinChain, coinStep_get_self,
      coinStep_get_ne _ _ _ _ _ _ _ (hne 3 2 (by decide)),
      coinStep_get_ne _ _ _ _ _ _ _ (hne 3 1 (by decide)),
      coinStep_get_ne _ _ _ _ _ _ _ (hne 3 0 (by decide))]

theorem coinChain_get_other (width height : ℕ) (coins : Fin 4 → Bool)
    (g : TGrid) (x y : ℕ)
    (h : ∀ i : Fin 4, ¬(x = (boxAt width height i).1 ∧
      y = (boxAt width height i).2)) :
    (coinChain width height coins g).get x y = g.get x y := by
  rw [coinChain, coinStep_get_ne _ _ _ _ _ _ _ (h 3),
    coinStep_get_ne _ _ _ _ _ _ _ (h 2), coinStep_get_ne _ _ _ _ _ _ _ (h 1),
    coinStep_get_ne _ _ _ _ _ _ _ (h 0)]

theorem genObsDQN_grid_above (width height : ℕ) (grid : TGrid)
    (goal_position agent_pos : ℕ × ℕ) (arrowQ : Fin 4 → ℚ)
    (numEpisodes threshold : ℕ) (coins : Fin 4 → Bool) (noise : Fin 4 → ℚ)
    (hthr : threshold < numEpisodes) :
    (genObsDQN width height grid goal_position agent_pos arrowQ numEpisodes
        threshold coins noise).grid =
      (clearedGrid width height grid).set
        (decoySel width height goal_position agent_pos).1
        (decoySel width height goal_position agent_pos).2 (some greyBox) := by
  rw [genObsDQN]
  simp only [if_pos hthr]

theorem genObsDQN_grid_below (width height : ℕ) (grid : TGrid)
    (goal_position agent_pos : ℕ × ℕ) (arrowQ : Fin 4 → ℚ)
    (numEpisodes threshold : ℕ) (coins : Fin 4 → Bool) (noise : Fin 4 → ℚ)
    (hthr : numEpisodes ≤ threshold) :
    (genObsDQN width height grid goal_position agent_pos arrowQ numEpisodes
        threshold coins noise).grid =
      coinChain width height coins (clearedGrid width height grid) := by
  rw [genObsDQN]
  simp only [if_neg (Nat.not_lt.mpr hthr)]

/-- The selected decoy cell is one of the four candidate cells. -/
theorem decoySel_mem (width height : ℕ) (goal_position agent_pos : ℕ × ℕ) :
    decoySel width height goal_position agent_pos = boxAt width height 0 ∨
    decoySel width height goal_position agent_pos = boxAt width height 1 ∨
    decoySel width height goal_position agent_pos = boxAt width height 2 := by
  rw [decoySel]
  by_cases h1 : agent_pos.2 = 1
  · rw [if_pos h1]
    by_cases h2 : goal_position = (width - 2, 1)
    · rw [if_pos h2]; right; left; rfl
    · rw [if_neg h2]; left; rfl
  · rw [if_neg h1]; right; right; rfl

/-- C5 (amended).  Decoy placement of gen_obs in main_dqn.py: above the
curriculum threshold the grey decoy occupies exactly one cell, the
candidate matching the true goal side when the agent is in the top
interior row and the up candidate otherwise, with the other candidates
empty; at or below the threshold each of the four candidate cells
independently holds the decoy exactly when its own coin
(np_random.random() < 0.5) came up true; and the branch is an exact
step function of the episode counter. -/
theorem C5_decoy_placement (width height : ℕ) (hw : 2 ≤ width)
    (hh : 2 ≤ height) (grid : TGrid) (goal_position agent_pos : ℕ × ℕ)
    (arrowQ : Fin 4 → ℚ) (numEpisodes threshold : ℕ) (coins : Fin 4 → Bool)
    (noise : Fin 4 → ℚ) :
    (threshold < numEpisodes →
      (genObsDQN width height grid goal_position agent_pos arrowQ numEpisodes
          threshold coins noise).grid.get
          (decoySel width height goal_position agent_pos).1
          (decoySel width height goal_position agent_pos).2 = some greyBox
      ∧ (∀ i : Fin 4,
          boxAt width height i ≠ decoySel width height goal_position agent_pos →
          (genObsDQN width height grid goal_position agent_pos arrowQ
            numEpisodes threshold coins noise).grid.get
            (boxAt width height i).1 (boxAt width height i).2 = none))
    ∧ (numEpisodes ≤ threshold →
      ∀ i : Fin 4,
        (genObsDQN width height grid goal_position agent_pos arrowQ numEpisodes
          threshold coins noise).grid.get (boxAt width height i).1
          (boxAt width height i).2 =
          if coins i then some greyBox else none)
    ∧ (agent_pos.2 = 1 →
        decoySel width height goal_position agent_pos =
          if goal_position = (width - 2, 1) then boxAt width height 1
          else boxAt width height 0)
    ∧ (agent_pos.2 ≠ 1 →
        decoySel width height goal_position agent_pos = boxAt width height 2)
    ∧ (∀ n1 n2 : ℕ, (threshold < n1 ↔ threshold < n2) →
        genObsDQN width height grid goal_position agent_pos arrowQ n1 threshold
          coins noise =
        genObsDQN width height grid goal_position agent_pos arrowQ n2 threshold
          coins noise) := by
  refine ⟨?_, ?_, ?_, ?_, ?_⟩
  · intro hthr
    rw [genObsDQN_grid_above _ _ _ _ _ _ _ _ _ _ hthr]
    constructor
    · exact set_get_self _ _ _
    · intro i hne2
      have hneq : ¬((boxAt width height i).1 =
          (decoySel width height goal_position agent_pos).1 ∧
          (boxAt width height i).2 =
          (decoySel width height goal_position agent_pos).2) := by
        rintro ⟨ha, hb⟩
        exact hne2 (by rw [← Prod.mk.eta (p := boxAt width height i), ha, hb])
      rw [TGrid.get_set, if_neg hneq,
        clearedGrid_get_box width height hw hh grid i]
  · intro hthr i
    rw [genObsDQN_grid_below _ _ _ _ _ _ _ _ _ _ hthr,
      coinChain_get_box width height hw hh coins _ i,
      clearedGrid_get_box width height hw hh grid i]
  · intro h1
    rw [decoySel, if_pos h1]
  · intro h1
    rw [decoySel, if_neg h1]
  · intro n1 n2 hiff
    simp only [genObsDQN]
    congr 1
    exact if_congr hiff rfl rfl

/-- Counterexample to C5 as stated: at the registered size 11 with the
goal on the right, above the threshold and with the agent at the start
cell (5, 9), the decoy sits at the up candidate (8, 5) while the
goal-side candidate (9, 6) is empty, and the same cell (8, 5) receives
the decoy when the goal is on the left, so the placement does not
match the true goal side. -/
theorem C5_counterexample :
    (genObsDQN 11 11 gridRight (genGridDQN 11 11 1).goal_position (5, 9)
      (genGridDQN 11 11 1).arrow_q_values 2001 2000 coinsFalse
      noiseZero).grid.get 9 6 = none
    ∧ (genObsDQN 11 11 gridRight (genGridDQN 11 11 1).goal_position (5, 9)
      (genGridDQN 11 11 1).arrow_q_values 2001 2000 coinsFalse
      noiseZero).grid.get 8 5 = some greyBox
    ∧ (genObsDQN 11 11 gridLeft (genGridDQN 11 11 0).goal_position (5, 9)
      (genGridDQN 11 11 0).arrow_q_values 2001 2000 coinsFalse
      noiseZero).grid.get 8 5 = some greyBox :=
  ⟨by decide, by decide, by decide⟩

/-- Witness for C5_decoy_placement at size 11 above the threshold. -/
theorem C5_decoy_placement_witness :
    (2 ≤ 11)
    ∧ (2000 < 2001)
    ∧ (genObsDQN 11 11 gridRight (9, 1) (5, 9) arrowZero 2001 2000 coinsFalse
        noiseZero).grid.get 8 5 = some greyBox := by
  have h := (C5_decoy_placement 11 11 (by norm_num) (by norm_num) gridRight
    (9, 1) (5, 9) arrowZero 2001 2000 coinsFalse noiseZero).1 (by norm_num)
  exact ⟨by norm_num, by norm_num, h.1⟩

/-- C8 (amended).  Generating an observation leaves every grid cell
outside the four candidate decoy cells exactly as it was; only the
four decoy candidates can change between reset and a later
observation. -/
theorem C8_frame (width height : ℕ) (grid : TGrid)
    (goal_position agent_pos : ℕ × ℕ) (arrowQ : Fin 4 → ℚ)
    (numEpisodes threshold : ℕ) (coins : Fin 4 → Bool) (noise : Fin 4 → ℚ)
    (x y : ℕ) (h : ∀ i : Fin 4, ((x, y) : ℕ × ℕ) ≠ boxAt width height i) :
    (genObsDQN width height grid goal_position agent_pos arrowQ numEpisodes
      threshold coins noise).grid.get x y = grid.get x y := by
  have h2 : ∀ i : Fin 4, ¬(x = (boxAt width height i).1 ∧
      y = (boxAt width height i).2) := by
    intro i hc
    exact h i (by rw [← Prod.mk.eta (p := boxAt width height i), ← hc.1, ← hc.2])
  have hsel : ¬(x = (decoySel width height goal_position agent_pos).1 ∧
      y = (decoySel width height goal_position agent_pos).2) := by
    rcases decoySel_mem width height goal_position agent_pos with hs | hs | hs <;>
      rw [hs] <;> exact h2 _
  by_cases hthr : threshold < numEpisodes
  · rw [genObsDQN_grid_above _ _ _ _ _ _ _ _ _ _ hthr, TGrid.get_set,
      if_neg hsel, clearedGrid_get_other _ _ _ _ _ h2]
  · rw [genObsDQN_grid_below _ _ _ _ _ _ _ _ _ _ (Nat.not_lt.mp hthr),
      coinChain_get_other _ _ _ _ _ _ h2, clearedGrid_get_other _ _ _ _ _ h2]

/-- Counterexample to C8 as stated: on the size-11 grid with the goal
left, cell (8, 5) is empty after reset map generation, but generating
an observation above the curriculum threshold stores a grey decoy box
there, so the grid is mutated by observation generation. -/
theorem C8_counterexample :
    gridLeft.get 8 5 = none
    ∧ (genObsDQN 11 11 gridLeft (genGridDQN 11 11 0).goal_position (5, 9)
        (genGridDQN 11 11 0).arrow_q_values 2002 2000 coinsFalse
        noiseZero).grid.get 8 5 = some greyBox :=
  ⟨by decide, by decide⟩

/-- Witness for C8_frame: the wall cell (3, 3) is untouched by
observation generation. -/
theorem C8_frame_witness :
    ((3, 3) : ℕ × ℕ) ≠ boxAt 11 11 0
    ∧ ((3, 3) : ℕ × ℕ) ≠ boxAt 11 11 1
    ∧ ((3, 3) : ℕ × ℕ) ≠ boxAt 11 11 2
    ∧ ((3, 3) : ℕ × ℕ) ≠ boxAt 11 11 3
    ∧ (genObsDQN 11 11 gridLeft (1, 1) (5, 9) arrowZero 2001 2000 coinsFalse
        noiseZero).grid.get 3 3 = gridLeft.get 3 3 :=
  ⟨by decide, by decide, by decide, by decide,
    C8_frame 11 11 gridLeft (1, 1) (5, 9) arrowZero 2001 2000 coinsFalse
      noiseZero 3 3 (by decide)⟩

theorem genObsDQN_arrow (width height : ℕ) (grid : TGrid)
    (goal_position agent_pos : ℕ × ℕ) (arrowQ : Fin 4 → ℚ)
    (numEpisodes threshold : ℕ) (coins : Fin 4 → Bool) (noise : Fin 4 → ℚ) :
    (genObsDQN width height grid goal_position agent_pos arrowQ numEpisodes
        threshold coins noise).arrow =
      if agent_pos.1 = (height - 1) / 2 ∧ agent_pos.2 = 1 then arrowQ
      else noise := rfl

/-- C9 (amended).  Two resets driven by the same seed stream always
produce the same map layout (goal side, hazard side, walls, the stored
arrow encoding) and the same start pose; the first hint is also the
same whenever the two resets fall on the same side of the curriculum
threshold.  When the pair straddles the threshold, the noise draw moves
to a different stream offset because the coin loop is skipped, and the
hint can differ. -/
theorem C9_reset_determinism (width height threshold : ℕ) (rng : ℕ → ℚ)
    (n1 n2 : ℕ) (h : threshold < n1 + 1 ↔ threshold < n2 + 1) :
    (resetDQN width height threshold rng n1).gen =
      (resetDQN width height threshold rng n2).gen
    ∧ (resetDQN width height threshold rng n1).gen.agent_pos =
        (width / 2, height - 2)
    ∧ (resetDQN width height threshold rng n1).gen.agent_dir = 3
    ∧ (resetDQN width height threshold rng n1).arrow =
        (resetDQN width height threshold rng n2).arrow := by
  refine ⟨rfl, rfl, rfl, ?_⟩
  simp only [resetDQN, genObsDQN_arrow]
  by_cases hd : (genGridDQN width height (integersTwo (rng 0))).agent_pos.1 =
      (height - 1) / 2 ∧
      (genGridDQN width height (integersTwo (rng 0))).agent_pos.2 = 1
  · rw [if_pos hd, if_pos hd]
  · rw [if_neg hd, if_neg hd]
    exact if_congr h rfl rfl

/-- Counterexample to C9 as stated: with the same seed stream, a reset
whose incremented episode counter lands exactly on the curriculum
threshold (2000) and the immediately following reset (2001) produce the
same layout and pose but different first hints, because the coin loop
is skipped above the threshold and the uniform noise is drawn from a
different stream offset. -/
theorem C9_counterexample :
    (resetDQN 11 11 2000 rngSample 1999).gen.goal_position =
      (resetDQN 11 11 2000 rngSample 2000).gen.goal_position
    ∧ (resetDQN 11 11 2000 rngSample 1999).gen.agent_pos =
        (resetDQN 11 11 2000 rngSample 2000).gen.agent_pos
    ∧ (resetDQN 11 11 2000 rngSample 1999).numEpisodes = 2000
    ∧ (resetDQN 11 11 2000 rngSample 2000).numEpisodes = 2001
    ∧ (resetDQN 11 11 2000 rngSample 1999).arrow 0 ≠
        (resetDQN 11 11 2000 rngSample 2000).arrow 0 := by
  refine ⟨rfl, rfl, rfl, rfl, ?_⟩
  show uniformNeg1To1 (rngSample 5) ≠ uniformNeg1To1 (rngSample 1)
  norm_num [uniformNeg1To1, rngSample]

/-- Witness for C9_reset_determinism with two resets below the
threshold. -/
theorem C9_reset_determinism_witness :
    ((2000 < 0 + 1) ↔ (2000 < 3 + 1))
    ∧ (resetDQN 11 11 2000 rngSample 0).gen =
        (resetDQN 11 11 2000 rngSample 3).gen
    ∧ (resetDQN 11 11 2000 rngSample 0).arrow =
        (resetDQN 11 11 2000 rngSample 3).arrow := by
  have h := C9_reset_determinism 11 11 2000 rngSample 0 3 (by omega)
  exact ⟨by omega, h.1, h.2.2.2⟩

/-! ## GAE lemmas -/

theorem range_reverse_succ (n : ℕ) :
    (List.range (n + 1)).reverse = n :: (List.range n).reverse := by
  rw [List.range_succ, List.reverse_append, List.reverse_singleton]
  rfl

theorem advRec_of_lt (γ lam : ℚ) (rewards values dones : ℕ → ℚ)
    (nextValue nextDone : ℚ) (T t : ℕ) (h : t < T) :
    advRec γ lam rewards values dones nextValue nextDone T t =
      gaeDelta γ rewards values dones nextValue nextDone T t +
        γ * lam * nextNonTerminal dones nextDone T t *
          advRec γ lam rewards values dones nextValue nextDone T (t + 1) := by
  rw [advRec, dif_pos h]

theorem advRec_of_ge (γ lam : ℚ) (rewards values dones : ℕ → ℚ)
    (nextValue nextDone : ℚ) (T t : ℕ) (h : T ≤ t) :
    advRec γ lam rewards values dones nextValue nextDone T t = 0 := by
  rw [advRec, dif_neg (Nat.not_lt.mpr h)]

/-- Invariant of the backward loop: starting the walk at index n with
the accumulator holding the closed-form value at n fills indices below
n with the closed-form values and leaves the rest of the array
untouched. -/
theorem gaeLoop_spec (γ lam : ℚ) (rewards values dones : ℕ → ℚ)
    (nextValue nextDone : ℚ) (T : ℕ) :
    ∀ n, n ≤ T → ∀ adv0 : ℕ → ℚ,
      gaeLoop γ lam rewards values dones nextValue nextDone T
        (List.range n).reverse
        (adv0, advRec γ lam rewards values dones nextValue nextDone T n) =
      (fun t => if t < n then
          advRec γ lam rewards values dones nextValue nextDone T t
        else adv0 t,
       advRec γ lam rewards values dones nextValue nextDone T 0) := by
  intro n
  induction n with
  | zero =>
    intro _ adv0
    simp only [List.range_zero, List.reverse_nil, gaeLoop]
    have hfun : adv0 = fun t =>
        if t < 0 then advRec γ lam rewards values dones nextValue nextDone T t
        else adv0 t := by
      funext t; rw [if_neg (Nat.not_lt_zero t)]
    rw [← hfun]
  | succ n ih =>
    intro hn adv0
    rw [range_reverse_succ]
    have hlt : n < T := hn
    simp only [gaeLoop]
    have ha : gaeDelta γ rewards values dones nextValue nextDone T n +
        γ * lam * nextNonTerminal dones nextDone T n *
          advRec γ lam rewards values dones nextValue nextDone T (n + 1) =
        advRec γ lam rewards values dones nextValue nextDone T n :=
      (advRec_of_lt γ lam rewards values dones nextValue nextDone T n hlt).symm
    rw [ha, ih (Nat.le_of_lt hlt)]
    have hfun : (fun t =>
        if t < n then advRec γ lam rewards values dones nextValue nextDone T t
        else Function.update adv0 n
          (advRec γ lam rewards values dones nextValue nextDone T n) t) =
        (fun t =>
          if t < n + 1 then
            advRec γ lam rewards values dones nextValue nextDone T t
          else adv0 t) := by
      funext t
      by_cases h1 : t < n
      · rw [if_pos h1, if_pos (by omega)]
      · by_cases h2 : t = n
        · subst h2
          rw [if_neg h1, if_pos (by omega), Function.update_same]
        · rw [if_neg h1, if_neg (by omega), Function.update_noteq h2]
    rw [hfun]

theorem advantages_eq_advRec (γ lam : ℚ) (rewards values dones : ℕ → ℚ)
    (nextValue nextDone : ℚ) (T t : ℕ) (ht : t < T) :
    advantages γ lam rewards values dones nextValue nextDone T t =
      advRec γ lam rewards values dones nextValue nextDone T t := by
  have h0 : advRec γ lam rewards values dones nextValue nextDone T T = 0 :=
    advRec_of_ge γ lam rewards values dones nextValue nextDone T T le_rfl
  have hspec := gaeLoop_spec γ lam rewards values dones nextValue nextDone T T
    le_rfl (fun _ => 0)
  rw [h0] at hspec
  unfold advantages
  rw [hspec]
  exact if_pos ht

/-- C4.  The advantages filled by the backward loop of src/main.py
satisfy the GAE recursion: each entry is its delta plus
gamma * lambda * nextnonterminal times the next entry (zero beyond the
horizon), with the bootstrap value and the final done flag used at the
last index through nextValues and nextNonTerminal, and the returns are
advantages plus values. -/
theorem C4_gae_recursion (γ lam : ℚ) (rewards values dones : ℕ → ℚ)
    (nextValue nextDone : ℚ) (T t : ℕ) (ht : t < T) :
    advantages γ lam rewards values dones nextValue nextDone T t =
      gaeDelta γ rewards values dones nextValue nextDone T t +
        γ * lam * nextNonTerminal dones nextDone T t *
          (if t + 1 < T then
            advantages γ lam rewards values dones nextValue nextDone T (t + 1)
          else 0)
    ∧ gaeReturns γ lam rewards values dones nextValue nextDone T t =
        advantages γ lam rewards values dones nextValue nextDone T t +
          values t := by
  constructor
  · rw [advantages_eq_advRec γ lam rewards values dones nextValue nextDone T t ht,
      advRec_of_lt γ lam rewards values dones nextValue nextDone T t ht]
    by_cases h1 : t + 1 < T
    · rw [if_pos h1,
        advantages_eq_advRec γ lam rewards values dones nextValue nextDone T
          (t + 1) h1]
    · rw [if_neg h1,
        advRec_of_ge γ lam rewards values dones nextValue nextDone T (t + 1)
          (by omega)]
  · rfl

/-- Witness for C4_gae_recursion on a length-2 rollout of unit rewards
and zero values. -/
theorem C4_gae_recursion_witness :
    (0 < 2)
    ∧ advantages 1 1 seqOne seqZero seqZero 0 0 2 0 =
        gaeDelta 1 seqOne seqZero seqZero 0 0 2 0 +
          1 * 1 * nextNonTerminal seqZero 0 2 0 *
            (if 0 + 1 < 2 then advantages 1 1 seqOne seqZero seqZero 0 0 2 1
            else 0)
    ∧ gaeReturns 1 1 seqOne seqZero seqZero 0 0 2 0 =
        advantages 1 1 seqOne seqZero seqZero 0 0 2 0 + seqZero 0 :=
  ⟨by norm_num,
    (C4_gae_recursion 1 1 seqOne seqZero seqZero 0 0 2 0 (by norm_num)).1,
    (C4_gae_recursion 1 1 seqOne seqZero seqZero 0 0 2 0 (by norm_num)).2⟩
